import Mathlib

/-!
Shallow embedding of `swg_python/parser.py` (the `SwgParser` class and the
`command_line_compile` entry point).

Python values flowing through the parser are YAML-decoded data: `None`,
booleans, integers, strings, lists and dictionaries.  Python dictionaries are
insertion-ordered; we model them as association lists whose keys are values,
with `dget` (`dict.get`), `dput` (`d[k] = v` / single-key `update`), `dpop`
(`dict.pop`) and `dupdate` (`dict.update`) mirroring the dictionary
operations the parser uses.
-/

inductive Val where
  | null : Val
  | bool : Bool → Val
  | int : Int → Val
  | str : String → Val
  | arr : List Val → Val
  | dict : List (Val × Val) → Val

mutual

def Val.beq : Val → Val → Bool
  | .null, .null => true
  | .bool a, .bool b => a == b
  | .int a, .int b => a == b
  | .str a, .str b => a == b
  | .arr xs, .arr ys => Val.beqArr xs ys
  | .dict xs, .dict ys => Val.beqDict xs ys
  | _, _ => false

def Val.beqArr : List Val → List Val → Bool
  | [], [] => true
  | a :: as, b :: bs => Val.beq a b && Val.beqArr as bs
  | _, _ => false

def Val.beqDict : List (Val × Val) → List (Val × Val) → Bool
  | [], [] => true
  | (k1, v1) :: as, (k2, v2) :: bs =>
      Val.beq k1 k2 && Val.beq v1 v2 && Val.beqDict as bs
  | _, _ => false

end

mutual

theorem Val.eq_of_beq : ∀ {a b : Val}, Val.beq a b = true → a = b
  | .null, .null, _ => rfl
  | .bool a, .bool b, h => by
      simp only [Val.beq, beq_iff_eq] at h; exact h ▸ rfl
  | .int a, .int b, h => by
      simp only [Val.beq, beq_iff_eq] at h; exact h ▸ rfl
  | .str a, .str b, h => by
      simp only [Val.beq, beq_iff_eq] at h; exact h ▸ rfl
  | .arr xs, .arr ys, h =>
      congrArg Val.arr (Val.eqArr_of_beq (by simpa [Val.beq] using h))
  | .dict xs, .dict ys, h =>
      congrArg Val.dict (Val.eqDict_of_beq (by simpa [Val.beq] using h))

theorem Val.eqArr_of_beq : ∀ {xs ys : List Val}, Val.beqArr xs ys = true → xs = ys
  | [], [], _ => rfl
  | a :: as, b :: bs, h => by
      simp only [Val.beqArr, Bool.and_eq_true] at h
      rw [Val.eq_of_beq h.1, Val.eqArr_of_beq h.2]

theorem Val.eqDict_of_beq :
    ∀ {xs ys : List (Val × Val)}, Val.beqDict xs ys = true → xs = ys
  | [], [], _ => rfl
  | (k1, v1) :: as, (k2, v2) :: bs, h => by
      simp only [Val.beqDict, Bool.and_eq_true] at h
      rw [Val.eq_of_beq h.1.1, Val.eq_of_beq h.1.2, Val.eqDict_of_beq h.2]

end

mutual

theorem Val.beq_refl : ∀ (a : Val), Val.beq a a = true
  | .null => rfl
  | .bool a => by simp [Val.beq]
  | .int a => by simp [Val.beq]
  | .str a => by simp [Val.beq]
  | .arr xs => by simp [Val.beq, Val.beqArr_refl xs]
  | .dict xs => by simp [Val.beq, Val.beqDict_refl xs]

theorem Val.beqArr_refl : ∀ (xs : List Val), Val.beqArr xs xs = true
  | [] => rfl
  | a :: as => by simp [Val.beqArr, Val.beq_refl a, Val.beqArr_refl as]

theorem Val.beqDict_refl : ∀ (xs : List (Val × Val)), Val.beqDict xs xs = true
  | [] => rfl
  | (k, v) :: as => by
      simp [Val.beqDict, Val.beq_refl k, Val.beq_refl v, Val.beqDict_refl as]

end

instance : DecidableEq Val := fun a b =>
  if h : Val.beq a b = true then isTrue (Val.eq_of_beq h)
  else isFalse (fun he => h (he ▸ Val.beq_refl a))

abbrev PyDict := List (Val × Val)

/-- `d.get(key)`: first binding of `key`, if any (Python dicts have unique
keys, so "first" is exact for dictionaries produced by the decoder). -/
def dget : PyDict → Val → Option Val
  | [], _ => none
  | (k, v) :: t, key => if k = key then some v else dget t key

/-- `d[key] = value` (also `d.update({key: value})`): replace the binding in
place if `key` is present, otherwise append it. -/
def dput : PyDict → Val → Val → PyDict
  | [], key, val => [(key, val)]
  | (k, v) :: t, key, val =>
      if k = key then (k, val) :: t else (k, v) :: dput t key val

/-- `d.pop(key)`: remove the binding of `key`. -/
def dpop : PyDict → Val → PyDict
  | [], _ => []
  | (k, v) :: t, key => if k = key then t else (k, v) :: dpop t key

/-- `d.update(other)`: fold every binding of `other` into `d`. -/
def dupdate (d other : PyDict) : PyDict :=
  other.foldl (fun acc kv => dput acc kv.1 kv.2) d

/-- The keys of a dictionary, in order. -/
def dkeys (d : PyDict) : List Val := d.map Prod.fst

example : dget (dput [] (.str "a") (.int 1)) (.str "a") = some (.int 1) := by decide

/-- `v is not None` in Python terms: `Val.isNull v = false`. -/
def Val.isNull : Val → Bool
  | .null => true
  | _ => false

theorem dget_dput_self (d : PyDict) (k v : Val) : dget (dput d k v) k = some v := by
  induction d with
  | nil => simp [dput, dget]
  | cons kv t ih =>
      obtain ⟨k1, v1⟩ := kv
      by_cases h : k1 = k
      · simp [dput, dget, h]
      · simp [dput, dget, h, ih]

theorem dget_dput_ne (d : PyDict) (k v k' : Val) (h : k' ≠ k) :
    dget (dput d k v) k' = dget d k' := by
  induction d with
  | nil => simp [dput, dget, Ne.symm h]
  | cons kv t ih =>
      obtain ⟨k1, v1⟩ := kv
      by_cases h1 : k1 = k
      · subst h1
        simp [dput, dget, Ne.symm h]
      · simp only [dput, if_neg h1, dget]
        by_cases h2 : k1 = k'
        · simp [h2]
        · simp [h2, ih]

theorem dget_dpop_ne (d : PyDict) (k k' : Val) (h : k' ≠ k) :
    dget (dpop d k) k' = dget d k' := by
  induction d with
  | nil => rfl
  | cons kv t ih =>
      obtain ⟨k1, v1⟩ := kv
      by_cases h1 : k1 = k
      · subst h1
        simp [dpop, dget, Ne.symm h]
      · simp only [dpop, if_neg h1, dget]
        by_cases h2 : k1 = k'
        · simp [h2]
        · simp [h2, ih]

theorem dget_eq_none_of_not_mem (d : PyDict) (k : Val) (h : k ∉ dkeys d) :
    dget d k = none := by
  induction d with
  | nil => rfl
  | cons kv t ih =>
      obtain ⟨k1, v1⟩ := kv
      simp only [dkeys, List.map_cons, List.mem_cons, not_or] at h
      simp [dget, Ne.symm h.1, ih (by simpa [dkeys] using h.2)]

theorem dget_dpop_self (d : PyDict) (k : Val) (h : (dkeys d).Nodup) :
    dget (dpop d k) k = none := by
  induction d with
  | nil => rfl
  | cons kv t ih =>
      obtain ⟨k1, v1⟩ := kv
      simp only [dkeys, List.map_cons, List.nodup_cons] at h
      by_cases h1 : k1 = k
      · subst h1
        simp only [dpop, if_pos rfl]
        exact dget_eq_none_of_not_mem t k1 (by simpa [dkeys] using h.1)
      · simp [dpop, dget, h1, ih h.2]

theorem dget_dupdate_not_mem (d other : PyDict) (k : Val)
    (h : k ∉ dkeys other) : dget (dupdate d other) k = dget d k := by
  induction other generalizing d with
  | nil => rfl
  | cons kv t ih =>
      obtain ⟨k1, v1⟩ := kv
      simp only [dkeys, List.map_cons, List.mem_cons, not_or] at h
      simp only [dupdate, List.foldl_cons]
      rw [show (List.foldl (fun acc kv => dput acc kv.1 kv.2) (dput d k1 v1) t)
            = dupdate (dput d k1 v1) t from rfl]
      rw [ih (dput d k1 v1) (by simpa [dkeys] using h.2)]
      exact dget_dput_ne d k1 v1 k h.1

/-!
## Block classifier (`is_swg_definition`, `is_swg_path`, `is_swg_info`)

Each predicate is `swg_block.get(key) is not None`: the key must be present
and bound to a non-null value.
-/

def is_swg_definition (b : PyDict) : Bool :=
  match dget b (.str "definition") with
  | some v => !v.isNull
  | none => false

def is_swg_path (b : PyDict) : Bool :=
  match dget b (.str "method") with
  | some v => !v.isNull
  | none => false

def is_swg_info (b : PyDict) : Bool :=
  match dget b (.str "info") with
  | some v => !v.isNull
  | none => false

/-!
## Merge engine (`put_definitions`, `put_swg_info`, `put_swg_path`)

`putDefinitionEntry doc name body` is the branch ladder of
`put_definitions` (parser.py lines 199-204) once `name` and the remaining
`body` have been extracted.  The first two Python branches
(`definitions` exists and `name` absent → `update`; `definitions` exists and
`name` present → assignment) both amount to `dput` on the `definitions`
dictionary, so they share one arm here.  When `doc['definitions']` is bound
to a non-null, non-dictionary value, `self._swagger_dictionary.get('definitions').get(...)`
raises `AttributeError`: modelled as `none`.  A null value fails the
`is not None` test and falls to the `else` branch, like an absent key.
-/

def putDefinitionEntry (doc : PyDict) (name body : Val) : Option PyDict :=
  match dget doc (.str "definitions") with
  | none => some (dput doc (.str "definitions") (.dict [(name, body)]))
  | some .null => some (dput doc (.str "definitions") (.dict [(name, body)]))
  | some (.dict defs) =>
      some (dput doc (.str "definitions") (.dict (dput defs name body)))
  | some _ => none

/-- `put_definitions` (parser.py lines 188-204) as a document transformer:
if the block is a definition block, pop its `definition` key and store the
rest under `definitions[name]`.  `none` models an uncaught Python exception. -/
def put_definitions (doc block : PyDict) : Option PyDict :=
  match dget block (.str "definition") with
  | none => some doc
  | some name =>
      if name.isNull then some doc
      else putDefinitionEntry doc name (.dict (dpop block (.str "definition")))

/-- `put_swg_info` (parser.py lines 206-212): if the block has a non-null
`info` key, `dict.update` the whole block into the top level of the
document. -/
def put_swg_info (doc block : PyDict) : PyDict :=
  if is_swg_info block then dupdate doc block else doc

/-- The branch ladder of `put_swg_path` (parser.py lines 227-236) once the
path, method and remaining operation `body` have been extracted.  When
`doc['paths']` (or `doc['paths'][path]` in the first branch) is bound to a
non-null, non-dictionary value, the Python attribute access raises:
modelled as `none`.  Null values fail the `is not None` tests and fall
through to the later branches, like absent keys. -/
def putPathEntry (doc : PyDict) (p m body : Val) : Option PyDict :=
  match dget doc (.str "paths") with
  | none => some (dput doc (.str "paths") (.dict [(p, .dict [(m, body)])]))
  | some .null => some (dput doc (.str "paths") (.dict [(p, .dict [(m, body)])]))
  | some (.dict pd) =>
      match dget pd p with
      | none => some (dput doc (.str "paths") (.dict (dput pd p (.dict [(m, body)]))))
      | some .null => some (dput doc (.str "paths") (.dict (dput pd p (.dict [(m, body)]))))
      | some (.dict pathDict) =>
          some (dput doc (.str "paths") (.dict (dput pd p (.dict (dput pathDict m body)))))
      | some _ => none
  | some _ => none

/-- `put_swg_path` (parser.py lines 214-236) as a document transformer.
`block.pop('path')` raises `KeyError` when the `path` key is absent even
though `is_swg_path` only checked `method`: modelled as `none`. -/
def put_swg_path (doc block : PyDict) : Option PyDict :=
  match dget block (.str "method") with
  | none => some doc
  | some m =>
      if m.isNull then some doc
      else
        match dget block (.str "path") with
        | none => none
        | some p =>
            putPathEntry doc p m
              (.dict (dpop (dpop block (.str "path")) (.str "method")))

/-!
## One loop-body step of `compile_swagger_json` (parser.py lines 150-152)

The loop body runs `put_definitions(block)`, `put_swg_info(block)`,
`put_swg_path(block)` on the same Python dictionary object, and the first
and third of these mutate that object (`block.pop`).  Moreover
`put_definitions` stores the very same object under
`definitions[name]`, so the pops performed later by `put_swg_path` are
visible in the stored definition body.  `processBlock` reproduces this:
`b1` is the block after `put_definitions`'s pop, `b2` after
`put_swg_path`'s pops, and the definition entry receives the final value
`b2` while the info update sees the intermediate value `b1`, exactly as
the mutated shared object does in Python. -/
def processBlock (doc block : PyDict) : Option PyDict :=
  let defVal := dget block (.str "definition")
  let isDef := match defVal with
    | some v => !v.isNull
    | none => false
  let b1 := if isDef then dpop block (.str "definition") else block
  let isInfo := is_swg_info b1
  let isPath := is_swg_path b1
  let b2 := if isPath then dpop (dpop b1 (.str "path")) (.str "method") else b1
  let step1 : Option PyDict :=
    match defVal with
    | some name => if name.isNull then some doc else putDefinitionEntry doc name (.dict b2)
    | none => some doc
  match step1 with
  | none => none
  | some doc1 =>
      let doc2 := if isInfo then dupdate doc1 b1 else doc1
      if isPath then
        match dget b1 (.str "path") with
        | none => none
        | some p =>
            match dget b1 (.str "method") with
            | some m => putPathEntry doc2 p m (.dict b2)
            | none => none
      else some doc2

/-!
## Block locator (`get_swg_block`, parser.py lines 156-186)

File text is a list of characters; `pyFind` is Python's `str.find` (index
of the first occurrence of the needle, `-1` if absent), and Python slices
`s[a:]` / `s[a:b]` for non-negative `a`, `b` are `drop` / `drop`+`take`
(`take` of a clamped-to-zero difference, matching Python's empty slice when
`b < a`).
-/

def listStartsWith : List Char → List Char → Bool
  | _, [] => true
  | [], _ :: _ => false
  | a :: hs, b :: ns => a = b && listStartsWith hs ns

def pyFindAux : List Char → List Char → Nat → Option Nat
  | hay, needle, i =>
      if listStartsWith hay needle then some i
      else
        match hay with
        | [] => none
        | _ :: t => pyFindAux t needle (i + 1)

/-- Python `hay.find(needle)`. -/
def pyFind (hay needle : List Char) : Int :=
  match pyFindAux hay needle 0 with
  | some n => (n : Int)
  | none => -1

def SWG_BEGIN : List Char := "@swg_begin".toList
def SWG_END : List Char := "@swg_end".toList

/-- `has_next` (parser.py lines 265-266): `_last_swg_block_position > -1`. -/
def has_next (pos : Int) : Bool := pos > -1

/-- The locator part of `get_swg_block` (parser.py lines 168-177): given the
file content and `_last_swg_block_position`, produce the raw block body (if
any) and the updated `_last_swg_block_position`.  The position update
`pos := pos + end + len(SWG_END)` happens before the three-way `None`
check, and the sentinel `-1` is stored whenever that check fires. -/
def get_swg_block_raw (content : List Char) (pos : Int) :
    Option (List Char) × Int :=
  if pos > -1 then
    let local_content := content.drop pos.toNat
    let start := pyFind local_content SWG_BEGIN
    let endPos := pyFind local_content SWG_END
    let newPos := pos + endPos + (SWG_END.length : Int)
    if newPos ≥ (content.length : Int) ∨ start = -1 ∨ endPos = -1 then
      (none, -1)
    else
      (some ((local_content.drop (start.toNat + SWG_BEGIN.length)).take
          (endPos.toNat - (start.toNat + SWG_BEGIN.length))), newPos)
  else (none, pos)

/-- Outcome of `yaml.load` on a raw block body: a value, Python `None`
(empty document), or a raised parse error.  The YAML grammar itself is an
external collaborator; scan-level theorems quantify over the decoder or
fix a concrete one. -/
inductive Decoded where
  | val : Val → Decoded
  | nullDoc : Decoded
  | err : Decoded
deriving DecidableEq

/-- `get_swg_block` (parser.py lines 156-186): locate the raw body, then
`yaml.load` it.  With `ignore_errors` a decode error is swallowed and the
result stays `None`; without it the exception propagates
(`Except.error`).  The returned `Int` is the updated
`_last_swg_block_position`. -/
def get_swg_block (decode : List Char → Decoded) (ignore_errors : Bool)
    (content : List Char) (pos : Int) : Except Unit (Option Val) × Int :=
  match get_swg_block_raw content pos with
  | (none, newPos) => (.ok none, newPos)
  | (some body, newPos) =>
      match decode body with
      | .val v => (.ok (some v), newPos)
      | .nullDoc => (.ok none, newPos)
      | .err => if ignore_errors then (.ok none, newPos) else (.error (), newPos)

structure ScanResult where
  doc : PyDict
  pos : Int
  locateCalls : Nat
deriving DecidableEq

/-- The `while self.has_next()` loop of `compile_swagger_json` (parser.py
lines 145-152).  Fuel bounds the iteration count; each continuing
iteration advances the position by at least the length of `@swg_end`, so
`content.length + 1` units of fuel always suffice.  `locateCalls` counts
`get_swg_block` calls.  A decoded block that is not a dictionary makes
`put_definitions` raise `AttributeError` (`block.get` on a non-dict), and
a `put_*` failure propagates: both are `Except.error`. -/
def scanLoop (decode : List Char → Decoded) (ignore_errors : Bool)
    (content : List Char) :
    Nat → Int → PyDict → Nat → Except Unit ScanResult
  | 0, pos, doc, calls => .ok ⟨doc, pos, calls⟩
  | fuel + 1, pos, doc, calls =>
      if has_next pos then
        match get_swg_block decode ignore_errors content pos with
        | (.error _, _) => .error ()
        | (.ok none, newPos) => .ok ⟨doc, newPos, calls + 1⟩
        | (.ok (some v), newPos) =>
            match v with
            | .dict b =>
                match processBlock doc b with
                | none => .error ()
                | some docNext =>
                    scanLoop decode ignore_errors content fuel newPos docNext (calls + 1)
            | _ => .error ()
      else .ok ⟨doc, pos, calls⟩

/-- `compile_swagger_json` (parser.py lines 131-154) for one file whose
text is `content`, starting from the aggregate document `doc`:
`_last_swg_block_position` is reset to `0` and the scan loop runs to
completion. -/
def compile_swagger_json (decode : List Char → Decoded) (ignore_errors : Bool)
    (content : List Char) (doc : PyDict) : Except Unit ScanResult :=
  scanLoop decode ignore_errors content (content.length + 1) 0 doc 0

/-!
## Serialization and output (`generate_spec` and the tail of `compile`,
parser.py lines 90-118 and 268-276)

`yaml.dump` / `json.dumps` are external collaborators, abstracted as the
functions `dumpY` / `dumpJ`; `os.path.exists` is abstracted as the
predicate `existsF`; the directory of the installed module (used for the
preview assets) is the string `dirPath`.  File writes are recorded as
`(path, contents)` pairs instead of performed.
-/

structure SwgState where
  swagger_dictionary : PyDict
  swagger_dump_yaml : String
  swagger_dump_json : String

/-- `generate_spec` (parser.py lines 268-276): dump the aggregate document
in both formats, but only when the dictionary is non-empty. -/
def generate_spec (dumpY dumpJ : PyDict → String) (st : SwgState) : SwgState :=
  if st.swagger_dictionary.length > 0 then
    { st with
        swagger_dump_yaml := dumpY st.swagger_dictionary
        swagger_dump_json := dumpJ st.swagger_dictionary }
  else st

structure CompileOut where
  state : SwgState
  outputWrites : List (String × String)
  previewWrites : List (String × String)

/-- The output phase of `compile` (parser.py lines 99-118), after the
folders have been scanned: run `generate_spec`, write the chosen dump to
`output_path` only when the path is non-empty AND `os.path.exists` holds
for it, then, when preview is enabled, write the two static preview
assets. -/
def compileOutput (existsF : String → Bool) (dumpY dumpJ : PyDict → String)
    (dirPath output_path format : String) (is_preview_enabled : Bool)
    (st : SwgState) : CompileOut :=
  let st1 := generate_spec dumpY dumpJ st
  let outputWrites :=
    if output_path.length > 0 ∧ existsF output_path then
      [(output_path,
        if format = "yaml" then st1.swagger_dump_yaml else st1.swagger_dump_json)]
    else []
  let previewWrites :=
    if is_preview_enabled then
      [(dirPath ++ "/static/swg_python/specification.js",
        "var SwaggerSpec = " ++ st1.swagger_dump_json ++ ";"),
       (dirPath ++ "/static/swg_python/specification.json",
        st1.swagger_dump_json)]
    else []
  ⟨st1, outputWrites, previewWrites⟩

/-!
## Command line driver (`command_line_compile`, parser.py lines 289-346)

The argument loop threads the flag state through the arguments; hitting
`-h` prints the usage text and `break`s out of the loop, but the code
after the loop (construct the parser, add the folders, call `compile`)
runs unconditionally.  The observable actions are recorded as a list of
effects.
-/

structure CliState where
  folders : List String
  output : String
  output_type : String
  is_f_param : Bool
  is_o_param : Bool
  is_t_param : Bool
deriving DecidableEq

def cliInit : CliState :=
  { folders := [], output := "", output_type := "json",
    is_f_param := false, is_o_param := false, is_t_param := false }

/-- One non-`-h` iteration of the argument loop (parser.py lines 321-339). -/
def cliStep (st : CliState) (arg : String) : CliState :=
  if arg = "-f" then
    { st with is_f_param := true, is_o_param := false, is_t_param := false }
  else if arg = "-o" then
    { st with is_f_param := false, is_o_param := true, is_t_param := false }
  else if arg = "-t" then
    { st with is_f_param := false, is_o_param := false, is_t_param := true }
  else if st.is_f_param then { st with folders := st.folders ++ [arg] }
  else if st.is_t_param then { st with output_type := arg }
  else if st.is_o_param then { st with output := arg, is_o_param := false }
  else st

inductive CliEffect where
  | printHelp : CliEffect
  | doCompile : List String → String → String → CliEffect
deriving DecidableEq

/-- The argument loop followed by the unconditional compile call
(parser.py lines 311-346): `-h` prints the usage message and breaks, and
in every case the parser is constructed, the collected folders are added
and `compile(output, output_type)` is invoked. -/
def cliGo : CliState → List String → List CliEffect
  | st, [] => [.doCompile st.folders st.output st.output_type]
  | st, arg :: rest =>
      if arg = "-h" then
        [.printHelp, .doCompile st.folders st.output st.output_type]
      else cliGo (cliStep st arg) rest

/-- `command_line_compile(args)` with an explicit argument list. -/
def command_line_compile (args : List String) : List CliEffect :=
  cliGo cliInit args

/-!
## Observation helpers for stating properties about the aggregate document
-/

/-- The operation stored at `doc['paths'][p][m]`, if that chain exists. -/
def lookupPathMethod (doc : PyDict) (p m : Val) : Option Val :=
  match dget doc (.str "paths") with
  | some (.dict pd) =>
      match dget pd p with
      | some (.dict pathDict) => dget pathDict m
      | _ => none
  | _ => none

/-- The body stored at `doc['definitions'][name]`, if that chain exists. -/
def lookupDefinition (doc : PyDict) (name : Val) : Option Val :=
  match dget doc (.str "definitions") with
  | some (.dict defs) => dget defs name
  | _ => none

/-!
## Claims
-/

/-- C4: for every file text and cursor position (`0 ≤ pos`, i.e. not the
sentinel), with `s` and `e` the first offsets of `@swg_begin` and
`@swg_end` in the slice of the text starting at the cursor: when neither
delimiter is absent and the computed new cursor `pos + e + len(@swg_end)`
is below the file length, the locator returns the substring of the slice
strictly between `s + len(@swg_begin)` and `e` together with that new
cursor (regardless of where the start delimiter was found); and it
returns no block exactly when the new cursor reaches or exceeds the file
length, or the start delimiter is absent, or the end delimiter is
absent. -/
theorem C4_locator_contract (content : List Char) (pos s e : Int)
    (hpos : 0 ≤ pos)
    (hs : s = pyFind (content.drop pos.toNat) SWG_BEGIN)
    (he : e = pyFind (content.drop pos.toNat) SWG_END) :
    (¬ (pos + e + (SWG_END.length : Int) ≥ (content.length : Int) ∨ s = -1 ∨ e = -1) →
      get_swg_block_raw content pos =
        (some (((content.drop pos.toNat).drop (s.toNat + SWG_BEGIN.length)).take
            (e.toNat - (s.toNat + SWG_BEGIN.length))),
         pos + e + (SWG_END.length : Int))) ∧
    ((get_swg_block_raw content pos).1 = none ↔
      (pos + e + (SWG_END.length : Int) ≥ (content.length : Int) ∨ s = -1 ∨ e = -1)) := by
  subst hs he
  have hgt : pos > -1 := by omega
  constructor
  · intro hcond
    simp only [get_swg_block_raw, if_pos hgt, if_neg hcond]
  · by_cases hcond : (pos + pyFind (content.drop pos.toNat) SWG_END + (SWG_END.length : Int)
        ≥ (content.length : Int) ∨
        pyFind (content.drop pos.toNat) SWG_BEGIN = -1 ∨
        pyFind (content.drop pos.toNat) SWG_END = -1)
    · simp only [get_swg_block_raw, if_pos hgt, if_pos hcond]
      simpa using hcond
    · simp only [get_swg_block_raw, if_pos hgt, if_neg hcond]
      simpa using hcond

theorem C4_locator_contract_witness :
    get_swg_block_raw "xx@swg_begin yo @swg_endzz".toList 0 = (some " yo ".toList, 24) := by
  have h := (C4_locator_contract "xx@swg_begin yo @swg_endzz".toList 0 2 16
    (by decide) (by decide) (by decide)).1 (by decide)
  rw [h]
  decide

/-- C7: scanning a file whose text contains neither delimiter performs
exactly one locate call, sets the cursor to the sentinel `-1` (so
`has_next` turns false), and leaves the aggregate document unchanged. -/
theorem C7_no_delimiter_file (content : List Char) (decode : List Char → Decoded)
    (ignore_errors : Bool) (doc : PyDict)
    (hb : pyFind content SWG_BEGIN = -1) (he : pyFind content SWG_END = -1) :
    compile_swagger_json decode ignore_errors content doc =
      .ok ⟨doc, -1, 1⟩ ∧ has_next (-1) = false := by
  refine ⟨?_, by decide⟩
  have hraw : get_swg_block_raw content 0 = (none, -1) := by
    simp only [get_swg_block_raw, Int.toNat_zero, List.drop_zero, hb, he]
    norm_num
  simp only [compile_swagger_json, scanLoop, get_swg_block, hraw]
  norm_num [has_next]

/-- A concrete stand-in for `yaml.load` used by concrete scan runs: it
decodes the body `info: ok` to `{info: "ok"}`, decodes the empty body to
the empty YAML document (Python `None`), and raises on everything else
(such as the unbalanced body `{un`). -/
def yamlStub (body : List Char) : Decoded :=
  if body = "info: ok".toList then .val (.dict [(.str "info", .str "ok")])
  else if body = [] then .nullDoc
  else .err

/-- C9: when, in the slice of the text starting at the cursor, the first
`@swg_end` occurs strictly before the first `@swg_begin`, any block body
the locator returns is the empty string; and if the decoder maps the
empty body to the empty YAML document (`None`, as `yaml.load` does), the
per-file scan stops at that point: one more locate call, the aggregate
document unchanged, any later blocks in the file skipped. -/
theorem C9_end_before_start (content : List Char) (pos : Int) (doc : PyDict)
    (decode : List Char → Decoded) (ignore_errors : Bool)
    (fuel calls : Nat) (s e : Int)
    (hpos : 0 ≤ pos)
    (hs : s = pyFind (content.drop pos.toNat) SWG_BEGIN)
    (he : e = pyFind (content.drop pos.toNat) SWG_END)
    (_hse : 0 ≤ e) (hes : e < s)
    (hdec : decode [] = .nullDoc) :
    (∀ body newPos, get_swg_block_raw content pos = (some body, newPos) → body = []) ∧
    scanLoop decode ignore_errors content (fuel + 1) pos doc calls =
      .ok ⟨doc, (get_swg_block_raw content pos).2, calls + 1⟩ := by
  have hgt : pos > -1 := by omega
  have hblen : SWG_BEGIN.length = 10 := by decide
  have htake : e.toNat - (s.toNat + SWG_BEGIN.length) = 0 := by
    rw [hblen]; omega
  have hkey : get_swg_block_raw content pos = (none, -1) ∨
      get_swg_block_raw content pos = (some [], pos + e + (SWG_END.length : Int)) := by
    by_cases hc : (pos + e + (SWG_END.length : Int) ≥ (content.length : Int) ∨
        s = -1 ∨ e = -1)
    · left
      simp only [get_swg_block_raw, ← hs, ← he]
      rw [if_pos hgt, if_pos hc]
    · right
      simp only [get_swg_block_raw, ← hs, ← he]
      rw [if_pos hgt, if_neg hc]
      simp [htake]
  constructor
  · intro body newPos hbe
    rcases hkey with hk | hk
    · rw [hk] at hbe
      simp at hbe
    · rw [hk] at hbe
      rw [Prod.mk.injEq] at hbe
      exact (Option.some.injEq _ _ ▸ hbe.1).symm
  · have hnext : has_next pos = true := by
      simp only [has_next, decide_eq_true_eq]
      omega
    rcases hkey with hk | hk
    · simp only [scanLoop, hnext, if_true, get_swg_block, hk]
    · simp only [scanLoop, hnext, if_true, get_swg_block, hk, hdec]

theorem C9_end_before_start_witness :
    scanLoop yamlStub true ("A@swg_endB@swg_begininfo: ok@swg_end\n").toList
        (5 + 1) 0 [(.str "z", .int 3)] 0 =
      .ok ⟨[(.str "z", .int 3)],
        (get_swg_block_raw ("A@swg_endB@swg_begininfo: ok@swg_end\n").toList 0).2,
        0 + 1⟩ :=
  (C9_end_before_start ("A@swg_endB@swg_begininfo: ok@swg_end\n").toList 0
    [(.str "z", .int 3)] yamlStub true 5 0 10 1
    (by decide) (by decide) (by decide) (by decide) (by decide) (by decide)).2

theorem C7_no_delimiter_file_witness :
    compile_swagger_json (fun _ => Decoded.err) true "hello world".toList
        [(.str "k", .str "v")] =
      .ok ⟨[(.str "k", .str "v")], -1, 1⟩ := by
  exact (C7_no_delimiter_file "hello world".toList (fun _ => Decoded.err) true
    [(.str "k", .str "v")] (by decide) (by decide)).1

/-- C6: merging a Definition block removes the `definition` key, stores the
remaining mapping under `definitions[name]` (creating the top-level
`definitions` mapping when it is absent or null), overwrites any prior
entry for that `name`, leaves every other definition untouched, and the
stored entry no longer carries the `definition` key. -/
theorem C6_merge_definition (doc block : PyDict) (name : Val)
    (hname : dget block (.str "definition") = some name)
    (hnn : name.isNull = false)
    (hnodup : (dkeys block).Nodup) :
    ((dget doc (.str "definitions") = none ∨ dget doc (.str "definitions") = some .null) →
      put_definitions doc block =
        some (dput doc (.str "definitions")
          (.dict [(name, .dict (dpop block (.str "definition")))]))) ∧
    (∀ defs, dget doc (.str "definitions") = some (.dict defs) →
      put_definitions doc block =
        some (dput doc (.str "definitions")
          (.dict (dput defs name (.dict (dpop block (.str "definition")))))) ∧
      dget (dput defs name (.dict (dpop block (.str "definition")))) name =
        some (.dict (dpop block (.str "definition"))) ∧
      (∀ other, other ≠ name →
        dget (dput defs name (.dict (dpop block (.str "definition")))) other =
          dget defs other)) ∧
    dget (dpop block (.str "definition")) (.str "definition") = none := by
  refine ⟨?_, ?_, dget_dpop_self block (.str "definition") hnodup⟩
  · rintro (h | h) <;>
      simp [put_definitions, hname, hnn, putDefinitionEntry, h]
  · intro defs hdefs
    exact ⟨by simp [put_definitions, hname, hnn, putDefinitionEntry, hdefs],
      dget_dput_self defs name _,
      fun other hne => dget_dput_ne defs name _ other hne⟩

theorem C6_merge_definition_witness :
    put_definitions [(.str "definitions", .dict [(.str "E", .int 1)])]
        [(.str "definition", .str "D"), (.str "type", .str "object")] =
      some [(.str "definitions",
        .dict [(.str "E", .int 1), (.str "D", .dict [(.str "type", .str "object")])])] ∧
    dget (dpop [(.str "definition", .str "D"), (.str "type", .str "object")]
        (.str "definition")) (.str "definition") = none := by
  have h := C6_merge_definition [(.str "definitions", .dict [(.str "E", .int 1)])]
    [(.str "definition", .str "D"), (.str "type", .str "object")] (.str "D")
    (by decide) (by decide) (by decide)
  refine ⟨?_, h.2.2⟩
  rw [(h.2.1 [(.str "E", .int 1)] (by decide)).1]
  decide

/-- C5: every merge of any of the three block kinds preserves all sibling
keys at the nesting level it writes to — re-merging an existing definition
name or (path, method) pair overwrites only that key's value, other
definitions / paths / methods and unrelated top-level keys keep their
values, an info merge touches only the keys the block carries, and two
Path blocks with the same path but distinct methods merged in either
order (the two blocks are universally quantified, so both orders are
instances) leave both methods present with their own bodies. -/
theorem C5_sibling_preservation :
    (∀ doc block name defs,
      dget block (.str "definition") = some name → name.isNull = false →
      dget doc (.str "definitions") = some (.dict defs) →
      put_definitions doc block =
        some (dput doc (.str "definitions")
          (.dict (dput defs name (.dict (dpop block (.str "definition")))))) ∧
      (∀ other, other ≠ name →
        dget (dput defs name (.dict (dpop block (.str "definition")))) other =
          dget defs other) ∧
      (∀ k, k ≠ .str "definitions" →
        dget (dput doc (.str "definitions")
          (.dict (dput defs name (.dict (dpop block (.str "definition")))))) k =
          dget doc k)) ∧
    (∀ doc block p m pd pathDict,
      dget block (.str "method") = some m → m.isNull = false →
      dget block (.str "path") = some p →
      dget doc (.str "paths") = some (.dict pd) →
      dget pd p = some (.dict pathDict) →
      put_swg_path doc block =
        some (dput doc (.str "paths") (.dict (dput pd p (.dict (dput pathDict m
          (.dict (dpop (dpop block (.str "path")) (.str "method")))))))) ∧
      (∀ m2, m2 ≠ m →
        dget (dput pathDict m (.dict (dpop (dpop block (.str "path")) (.str "method")))) m2 =
          dget pathDict m2) ∧
      (∀ p2, p2 ≠ p →
        dget (dput pd p (.dict (dput pathDict m
          (.dict (dpop (dpop block (.str "path")) (.str "method")))))) p2 = dget pd p2) ∧
      (∀ k, k ≠ .str "paths" →
        dget (dput doc (.str "paths") (.dict (dput pd p (.dict (dput pathDict m
          (.dict (dpop (dpop block (.str "path")) (.str "method")))))))) k = dget doc k)) ∧
    (∀ doc block, is_swg_info block = true →
      put_swg_info doc block = dupdate doc block ∧
      ∀ k, k ∉ dkeys block → dget (dupdate doc block) k = dget doc k) ∧
    (∀ doc bl1 bl2 p m1 m2 d1 d2,
      dget bl1 (.str "method") = some m1 → m1.isNull = false →
      dget bl1 (.str "path") = some p →
      dget bl2 (.str "method") = some m2 → m2.isNull = false →
      dget bl2 (.str "path") = some p →
      m1 ≠ m2 → dget doc (.str "paths") = none →
      put_swg_path doc bl1 = some d1 → put_swg_path d1 bl2 = some d2 →
      lookupPathMethod d2 p m1 =
        some (.dict (dpop (dpop bl1 (.str "path")) (.str "method"))) ∧
      lookupPathMethod d2 p m2 =
        some (.dict (dpop (dpop bl2 (.str "path")) (.str "method")))) := by
  refine ⟨?_, ?_, ?_, ?_⟩
  · intro doc block name defs hname hnn hdefs
    exact ⟨by simp [put_definitions, hname, hnn, putDefinitionEntry, hdefs],
      fun other hne => dget_dput_ne defs name _ other hne,
      fun k hk => dget_dput_ne doc (.str "definitions") _ k hk⟩
  · intro doc block p m pd pathDict hm hmn hp hpaths hpd
    exact ⟨by simp [put_swg_path, hm, hmn, hp, putPathEntry, hpaths, hpd],
      fun m2 hne => dget_dput_ne pathDict m _ m2 hne,
      fun p2 hne => dget_dput_ne pd p _ p2 hne,
      fun k hk => dget_dput_ne doc (.str "paths") _ k hk⟩
  · intro doc block hinfo
    exact ⟨by simp [put_swg_info, hinfo],
      fun k hk => dget_dupdate_not_mem doc block k hk⟩
  · intro doc bl1 bl2 p m1 m2 d1 d2 hm1 hm1n hp1 hm2 hm2n hp2 hmm hpaths hput1 hput2
    have h1 : put_swg_path doc bl1 =
        some (dput doc (.str "paths") (.dict [(p, .dict
          [(m1, .dict (dpop (dpop bl1 (.str "path")) (.str "method")))])])) := by
      simp [put_swg_path, hm1, hm1n, hp1, putPathEntry, hpaths]
    rw [h1] at hput1
    injection hput1 with hd1
    subst hd1
    have h2 : put_swg_path (dput doc (.str "paths") (.dict [(p, .dict
        [(m1, .dict (dpop (dpop bl1 (.str "path")) (.str "method")))])])) bl2 =
        some (dput (dput doc (.str "paths") (.dict [(p, .dict
          [(m1, .dict (dpop (dpop bl1 (.str "path")) (.str "method")))])]))
          (.str "paths")
          (.dict [(p, .dict
            [(m1, .dict (dpop (dpop bl1 (.str "path")) (.str "method"))),
             (m2, .dict (dpop (dpop bl2 (.str "path")) (.str "method")))])])) := by
      simp [put_swg_path, hm2, hm2n, hp2, putPathEntry, dget_dput_self, dget, dput, hmm]
    rw [h2] at hput2
    injection hput2 with hd2
    subst hd2
    constructor
    · simp [lookupPathMethod, dget_dput_self, dget]
    · simp [lookupPathMethod, dget_dput_self, dget, hmm]

theorem C5_sibling_preservation_witness :
    lookupPathMethod [(.str "paths", .dict [(.str "/p",
        .dict [(.str "get", .dict [(.str "a", .int 1)]),
               (.str "post", .dict [(.str "b", .int 2)])])])]
      (.str "/p") (.str "get") = some (.dict [(.str "a", .int 1)]) ∧
    lookupPathMethod [(.str "paths", .dict [(.str "/p",
        .dict [(.str "get", .dict [(.str "a", .int 1)]),
               (.str "post", .dict [(.str "b", .int 2)])])])]
      (.str "/p") (.str "post") = some (.dict [(.str "b", .int 2)]) := by
  have h := C5_sibling_preservation.2.2.2 []
    [(.str "path", .str "/p"), (.str "method", .str "get"), (.str "a", .int 1)]
    [(.str "path", .str "/p"), (.str "method", .str "post"), (.str "b", .int 2)]
    (.str "/p") (.str "get") (.str "post")
    [(.str "paths", .dict [(.str "/p", .dict [(.str "get", .dict [(.str "a", .int 1)])])])]
    [(.str "paths", .dict [(.str "/p",
      .dict [(.str "get", .dict [(.str "a", .int 1)]),
             (.str "post", .dict [(.str "b", .int 2)])])])]
    (by decide) (by decide) (by decide) (by decide) (by decide) (by decide)
    (by decide) (by decide) (by decide) (by decide)
  exact ⟨h.1.trans (by decide), h.2.trans (by decide)⟩

/-- C3 as stated is false: the loop body applies `put_definitions`,
`put_swg_info` and `put_swg_path` one after the other (no `elif`), so a
block with a non-null `definition` key and a non-null `method` key is
merged as a definition AND as a path.  Concretely, processing
`{definition: D, method: get, path: /x, foo: bar}` against the empty
document yields a document with a `paths` entry (which "merged only as a
definition" forbids), and the shared mutated block object leaves
`definitions["D"]` equal to `{foo: bar}` as well. -/
theorem C3_counterexample :
    processBlock []
        [(.str "definition", .str "D"), (.str "method", .str "get"),
         (.str "path", .str "/x"), (.str "foo", .str "bar")] =
      some [(.str "definitions", .dict [(.str "D", .dict [(.str "foo", .str "bar")])]),
            (.str "paths", .dict [(.str "/x",
              .dict [(.str "get", .dict [(.str "foo", .str "bar")])])])] ∧
    dget [(.str "definitions", .dict [(.str "D", .dict [(.str "foo", .str "bar")])]),
          (.str "paths", .dict [(.str "/x",
            .dict [(.str "get", .dict [(.str "foo", .str "bar")])])])]
      (.str "paths") =
      some (.dict [(.str "/x", .dict [(.str "get", .dict [(.str "foo", .str "bar")])])]) := by
  exact ⟨by decide, by decide⟩

/-- C3 amended: a block matching none of the three kinds is ignored (the
document is unchanged), but classification is not exclusive: a block with
a non-null `definition` key and a non-null `method` key (and a `path`
key, no info key) is merged both as a definition and as a path, the two
entries sharing the same final body, which — through the mutation of the
shared block object — has also lost its `path` and `method` keys in the
`definitions` entry. -/
theorem C3_all_matching_merges_apply :
    (∀ doc block,
      is_swg_definition block = false → is_swg_info block = false →
      is_swg_path block = false →
      processBlock doc block = some doc) ∧
    (∀ doc block name m p,
      dget block (.str "definition") = some name → name.isNull = false →
      is_swg_info (dpop block (.str "definition")) = false →
      dget (dpop block (.str "definition")) (.str "method") = some m →
      m.isNull = false →
      dget (dpop block (.str "definition")) (.str "path") = some p →
      dget doc (.str "definitions") = none → dget doc (.str "paths") = none →
      processBlock doc block =
        some (dput
          (dput doc (.str "definitions") (.dict [(name, .dict
            (dpop (dpop (dpop block (.str "definition")) (.str "path")) (.str "method")))]))
          (.str "paths") (.dict [(p, .dict [(m, .dict
            (dpop (dpop (dpop block (.str "definition")) (.str "path")) (.str "method")))])])) ∧
      lookupDefinition (dput
          (dput doc (.str "definitions") (.dict [(name, .dict
            (dpop (dpop (dpop block (.str "definition")) (.str "path")) (.str "method")))]))
          (.str "paths") (.dict [(p, .dict [(m, .dict
            (dpop (dpop (dpop block (.str "definition")) (.str "path")) (.str "method")))])]))
        name =
        some (.dict (dpop (dpop (dpop block (.str "definition")) (.str "path")) (.str "method"))) ∧
      lookupPathMethod (dput
          (dput doc (.str "definitions") (.dict [(name, .dict
            (dpop (dpop (dpop block (.str "definition")) (.str "path")) (.str "method")))]))
          (.str "paths") (.dict [(p, .dict [(m, .dict
            (dpop (dpop (dpop block (.str "definition")) (.str "path")) (.str "method")))])]))
        p m =
        some (.dict (dpop (dpop (dpop block (.str "definition")) (.str "path")) (.str "method")))) := by
  constructor
  · intro doc block hdef hinfo hpath
    cases hv : dget block (.str "definition") with
    | none => simp [processBlock, hv, hinfo, hpath]
    | some v =>
        have hnull : v.isNull = true := by
          simpa [is_swg_definition, hv] using hdef
        simp [processBlock, hv, hnull, hinfo, hpath]
  · intro doc block name m p hname hnn hinfo hm hmn hp hdefs hpaths
    have hb2 : dget (dput doc (.str "definitions") (.dict [(name, .dict
        (dpop (dpop (dpop block (.str "definition")) (.str "path")) (.str "method")))]))
        (.str "paths") = none := by
      rw [dget_dput_ne doc (.str "definitions") _ (.str "paths") (by decide)]
      exact hpaths
    refine ⟨?_, ?_, ?_⟩
    · simp [processBlock, hname, hnn, hinfo, hm, hmn, hp, is_swg_path,
        putDefinitionEntry, hdefs, putPathEntry, hb2]
    · have hd : dget (dput
          (dput doc (.str "definitions") (.dict [(name, .dict
            (dpop (dpop (dpop block (.str "definition")) (.str "path")) (.str "method")))]))
          (.str "paths") (.dict [(p, .dict [(m, .dict
            (dpop (dpop (dpop block (.str "definition")) (.str "path")) (.str "method")))])]))
          (.str "definitions") =
          some (.dict [(name, .dict
            (dpop (dpop (dpop block (.str "definition")) (.str "path")) (.str "method")))]) := by
        rw [dget_dput_ne _ (.str "paths") _ (.str "definitions") (by decide)]
        exact dget_dput_self doc (.str "definitions") _
      simp [lookupDefinition, hd, dget]
    · simp [lookupPathMethod, dget_dput_self, dget]

theorem C3_all_matching_merges_apply_witness :
    processBlock [(.str "other", .int 7)]
        [(.str "definition", .str "D"), (.str "method", .str "put"),
         (.str "path", .str "/y"), (.str "desc", .str "d")] =
      some [(.str "other", .int 7),
            (.str "definitions", .dict [(.str "D", .dict [(.str "desc", .str "d")])]),
            (.str "paths", .dict [(.str "/y",
              .dict [(.str "put", .dict [(.str "desc", .str "d")])])])] := by
  have h := (C3_all_matching_merges_apply.2 [(.str "other", .int 7)]
    [(.str "definition", .str "D"), (.str "method", .str "put"),
     (.str "path", .str "/y"), (.str "desc", .str "d")]
    (.str "D") (.str "put") (.str "/y")
    (by decide) (by decide) (by decide) (by decide) (by decide) (by decide)
    (by decide) (by decide)).1
  rw [h]
  decide

/-- C2 as stated is false: with soft-fail enabled a decode failure is
indeed swallowed (no error is raised), but `compile_swagger_json` then
sees `block is None` and `break`s — scanning does NOT continue with the
file's next block.  For a file whose malformed block (`{un`) precedes its
well-formed block (`info: ok`), the run ends with the aggregate document
still empty (one single locate call), so the well-formed block's
contribution is missing, contradicting "regardless of which block comes
first". -/
theorem C2_counterexample :
    compile_swagger_json yamlStub true
        ("@swg_begin\x7bun@swg_end@swg_begininfo: ok@swg_end\n").toList [] =
      .ok ⟨[], 21, 1⟩ ∧
    dget ([] : PyDict) (.str "info") = none := by
  exact ⟨rfl, rfl⟩

/-- C2 amended: with soft-fail enabled, a block body that fails to decode
is swallowed (the scan returns successfully, no error), but the per-file
scan stops at that block — the document is unchanged from that point and
no further block of the file is located; a file whose well-formed block
precedes the malformed one still contributes the well-formed block. -/
theorem C2_soft_fail_stops_scan (content : List Char) (pos : Int) (doc : PyDict)
    (decode : List Char → Decoded) (fuel calls : Nat) (body : List Char)
    (newPos : Int)
    (hnext : has_next pos = true)
    (hraw : get_swg_block_raw content pos = (some body, newPos))
    (hdec : decode body = .err) :
    scanLoop decode true content (fuel + 1) pos doc calls =
      .ok ⟨doc, newPos, calls + 1⟩ ∧
    compile_swagger_json yamlStub true
        ("@swg_begininfo: ok@swg_end@swg_begin\x7bun@swg_end\n").toList [] =
      .ok ⟨[(.str "info", .str "ok")], 47, 2⟩ := by
  constructor
  · simp only [scanLoop, hnext, if_true, get_swg_block, hraw, hdec]
  · rfl

theorem C2_soft_fail_stops_scan_witness :
    scanLoop yamlStub true
        ("@swg_begin\x7bun@swg_end@swg_begininfo: ok@swg_end\n").toList
        (47 + 1) 0 [] 0 = .ok ⟨[], 21, 0 + 1⟩ :=
  (C2_soft_fail_stops_scan ("@swg_begin\x7bun@swg_end@swg_begininfo: ok@swg_end\n").toList
    0 [] yamlStub 47 0 "\x7bun".toList 21
    (by decide) (by decide) (by decide)).1

/-- C8 as stated is false: hitting `-h` prints the usage message and
breaks the argument loop, but `command_line_compile` then unconditionally
constructs the parser, adds the collected folders and calls `compile`.
With arguments `-f a -h`, the run both prints help and invokes compile on
folder `a`. -/
theorem C8_counterexample :
    command_line_compile ["-f", "a", "-h"] =
      [.printHelp, .doCompile ["a"] "" "json"] ∧
    CliEffect.doCompile ["a"] "" "json" ∈ command_line_compile ["-f", "a", "-h"] := by
  exact ⟨by decide, by decide⟩

theorem cliGo_help_break (st : CliState) (pre post : List String)
    (hpre : "-h" ∉ pre) :
    cliGo st (pre ++ "-h" :: post) = .printHelp :: cliGo st pre := by
  induction pre generalizing st with
  | nil => simp [cliGo]
  | cons a t ih =>
      have ha : a ≠ "-h" := fun he => hpre (by simp [he])
      simp only [List.cons_append, cliGo, if_neg ha]
      exact ih (cliStep st a) (fun hm => hpre (List.mem_cons_of_mem a hm))

theorem cliGo_ends_with_compile (args : List String) (st : CliState) :
    ∃ f o t, (cliGo st args).getLast? = some (.doCompile f o t) := by
  induction args generalizing st with
  | nil => exact ⟨st.folders, st.output, st.output_type, rfl⟩
  | cons a rest ih =>
      by_cases ha : a = "-h"
      · subst ha
        exact ⟨st.folders, st.output, st.output_type, rfl⟩
      · simp only [cliGo, if_neg ha]
        exact ih (cliStep st a)

/-- C8 amended: `-h` prints the usage message and stops argument
processing at the first `-h`, but it does not prevent compilation: the
effects of a run are exactly the help message followed by what a run on
the arguments before `-h` would do, and every run (with or without `-h`)
ends by invoking the compile operation. -/
theorem C8_help_does_not_stop_compile (pre post : List String)
    (hpre : "-h" ∉ pre) :
    command_line_compile (pre ++ "-h" :: post) =
      .printHelp :: command_line_compile pre ∧
    (∀ args : List String, ∃ f o t,
      (command_line_compile args).getLast? = some (.doCompile f o t)) :=
  ⟨cliGo_help_break cliInit pre post hpre,
   fun args => cliGo_ends_with_compile args cliInit⟩

theorem C8_help_does_not_stop_compile_witness :
    command_line_compile (["-f", "x"] ++ "-h" :: ["-o", "y"]) =
      .printHelp :: command_line_compile ["-f", "x"] :=
  (C8_help_does_not_stop_compile ["-f", "x"] ["-o", "y"] (by decide)).1

/-- C10: with a non-empty output path, the serialized document is written
to that path only when `os.path.exists` already holds for it.  When the
destination does not exist, no output write happens and no error is
raised (the function is total), while the aggregate document is untouched
and both serialized dumps are still produced (when the document is
non-empty); when it does exist, exactly the chosen dump is written. -/
theorem C10_output_written_only_if_path_exists
    (existsF : String → Bool) (dumpY dumpJ : PyDict → String)
    (dirPath output_path format : String) (preview : Bool) (st : SwgState)
    (_hne : output_path.length > 0) :
    (existsF output_path = false →
      (compileOutput existsF dumpY dumpJ dirPath output_path format preview
        st).outputWrites = []) ∧
    (compileOutput existsF dumpY dumpJ dirPath output_path format preview
      st).state = generate_spec dumpY dumpJ st ∧
    (compileOutput existsF dumpY dumpJ dirPath output_path format preview
      st).state.swagger_dictionary = st.swagger_dictionary ∧
    (st.swagger_dictionary.length > 0 →
      (compileOutput existsF dumpY dumpJ dirPath output_path format preview
        st).state.swagger_dump_json = dumpJ st.swagger_dictionary ∧
      (compileOutput existsF dumpY dumpJ dirPath output_path format preview
        st).state.swagger_dump_yaml = dumpY st.swagger_dictionary) ∧
    (existsF output_path = true →
      (compileOutput existsF dumpY dumpJ dirPath output_path format preview
        st).outputWrites =
        [(output_path, if format = "yaml"
          then (generate_spec dumpY dumpJ st).swagger_dump_yaml
          else (generate_spec dumpY dumpJ st).swagger_dump_json)]) := by
  refine ⟨fun hex => ?_, rfl, ?_, fun hlen => ?_, fun hex => ?_⟩
  · simp [compileOutput, hex]
  · simp only [compileOutput, generate_spec]
    split <;> rfl
  · constructor <;> simp [compileOutput, generate_spec, hlen]
  · simp [compileOutput, hex, _hne]

theorem C10_output_written_only_if_path_exists_witness :
    (compileOutput (fun _ => false) (fun _ => "Y") (fun _ => "J") "/dir"
      "out.json" "json" false ⟨[(.str "a", .int 1)], "", ""⟩).outputWrites = [] ∧
    (compileOutput (fun _ => false) (fun _ => "Y") (fun _ => "J") "/dir"
      "out.json" "json" false
      ⟨[(.str "a", .int 1)], "", ""⟩).state.swagger_dump_json = "J" := by
  have h := C10_output_written_only_if_path_exists (fun _ => false)
    (fun _ => "Y") (fun _ => "J") "/dir" "out.json" "json" false
    ⟨[(.str "a", .int 1)], "", ""⟩ (by decide)
  exact ⟨h.1 rfl, (h.2.2.2.1 (by decide)).1⟩

/-- C1 as stated is false: merging a second Path block with the same path
and method does not shallow-union the operations; it replaces the whole
method entry.  Running the claim's own example (`summary: A` then
`description: B` into an empty document) yields
`paths["/x"]["get"] == {description: "B"}`, with no `summary` key at
all. -/
theorem C1_counterexample :
    Option.bind
      (put_swg_path []
        [(.str "path", .str "/x"), (.str "method", .str "get"), (.str "summary", .str "A")])
      (fun d => put_swg_path d
        [(.str "path", .str "/x"), (.str "method", .str "get"), (.str "description", .str "B")]) =
      some [(.str "paths", .dict [(.str "/x",
        .dict [(.str "get", .dict [(.str "description", .str "B")])])])] ∧
    lookupPathMethod [(.str "paths", .dict [(.str "/x",
        .dict [(.str "get", .dict [(.str "description", .str "B")])])])]
      (.str "/x") (.str "get") = some (.dict [(.str "description", .str "B")]) ∧
    dget [(.str "description", .str "B")] (.str "summary") = none := by decide

/-- C1 amended: when `paths[path][method]` already exists, merging a Path
block with that same path and method replaces the whole operation entry
with the new block's remaining mapping (existing operation keys do not
survive), while sibling methods under the same path keep their values. -/
theorem C1_replace_existing_operation (doc block : PyDict) (p m : Val)
    (pd pathDict : PyDict)
    (hm : dget block (.str "method") = some m) (hmn : m.isNull = false)
    (hp : dget block (.str "path") = some p)
    (hpaths : dget doc (.str "paths") = some (.dict pd))
    (hpd : dget pd p = some (.dict pathDict)) :
    put_swg_path doc block =
      some (dput doc (.str "paths") (.dict (dput pd p (.dict (dput pathDict m
        (.dict (dpop (dpop block (.str "path")) (.str "method")))))))) ∧
    lookupPathMethod (dput doc (.str "paths") (.dict (dput pd p (.dict (dput pathDict m
        (.dict (dpop (dpop block (.str "path")) (.str "method")))))))) p m =
      some (.dict (dpop (dpop block (.str "path")) (.str "method"))) ∧
    (∀ m2, m2 ≠ m →
      lookupPathMethod (dput doc (.str "paths") (.dict (dput pd p (.dict (dput pathDict m
        (.dict (dpop (dpop block (.str "path")) (.str "method")))))))) p m2 =
        dget pathDict m2) := by
  refine ⟨by simp [put_swg_path, hm, hmn, hp, putPathEntry, hpaths, hpd], ?_, ?_⟩
  · simp [lookupPathMethod, dget_dput_self]
  · intro m2 hne
    simp [lookupPathMethod, dget_dput_self, dget_dput_ne pathDict m _ m2 hne]

theorem C1_replace_existing_operation_witness :
    put_swg_path
        [(.str "paths", .dict [(.str "/x",
          .dict [(.str "get", .dict [(.str "summary", .str "A")]),
                 (.str "post", .dict [(.str "summary", .str "P")])])])]
        [(.str "path", .str "/x"), (.str "method", .str "get"),
         (.str "description", .str "B")] =
      some [(.str "paths", .dict [(.str "/x",
        .dict [(.str "get", .dict [(.str "description", .str "B")]),
               (.str "post", .dict [(.str "summary", .str "P")])])])] ∧
    lookupPathMethod [(.str "paths", .dict [(.str "/x",
        .dict [(.str "get", .dict [(.str "description", .str "B")]),
               (.str "post", .dict [(.str "summary", .str "P")])])])]
      (.str "/x") (.str "post") = some (.dict [(.str "summary", .str "P")]) := by
  have h := C1_replace_existing_operation
    [(.str "paths", .dict [(.str "/x",
      .dict [(.str "get", .dict [(.str "summary", .str "A")]),
             (.str "post", .dict [(.str "summary", .str "P")])])])]
    [(.str "path", .str "/x"), (.str "method", .str "get"),
     (.str "description", .str "B")]
    (.str "/x") (.str "get")
    [(.str "/x", .dict [(.str "get", .dict [(.str "summary", .str "A")]),
      (.str "post", .dict [(.str "summary", .str "P")])])]
    [(.str "get", .dict [(.str "summary", .str "A")]),
     (.str "post", .dict [(.str "summary", .str "P")])]
    (by decide) (by decide) (by decide) (by decide) (by decide)
  constructor
  · rw [h.1]
    decide
  · have h3 := h.2.2 (.str "post") (by decide)
    rw [show lookupPathMethod [(.str "paths", .dict [(.str "/x",
        .dict [(.str "get", .dict [(.str "description", .str "B")]),
               (.str "post", .dict [(.str "summary", .str "P")])])])]
      (.str "/x") (.str "post") =
        lookupPathMethod (dput
          [(.str "paths", .dict [(.str "/x",
            .dict [(.str "get", .dict [(.str "summary", .str "A")]),
                   (.str "post", .dict [(.str "summary", .str "P")])])])]
          (.str "paths")
          (.dict (dput
            [(.str "/x", .dict [(.str "get", .dict [(.str "summary", .str "A")]),
              (.str "post", .dict [(.str "summary", .str "P")])])]
            (.str "/x")
            (.dict (dput
              [(.str "get", .dict [(.str "summary", .str "A")]),
               (.str "post", .dict [(.str "summary", .str "P")])]
              (.str "get")
              (.dict (dpop (dpop
                [(.str "path", .str "/x"), (.str "method", .str "get"),
                 (.str "description", .str "B")]
                (.str "path")) (.str "method"))))))))
      (.str "/x") (.str "post") from by decide]
    rw [h3]
    decide

